import Mathlib

/-!
Verification of the MEGA SDK user-alert engine interface
(`include/mega/useralerts.h`) and the change-tracking accessors of
`include/mega/setandelement.h`.

The repository ships only the headers; inline member functions are embedded
directly from the source, while bodies that live in a missing `.cpp` file are
modelled from the specification (`spec.md`) and are marked with a doc comment
beginning `Modelled from the spec:`.

Conventions of the embedding:
* `handle` (a 64-bit unsigned integer in the source) is `Nat`;
* `m_time_t` (a signed integer) is `Int`;
* `nameid` (a 64-bit unsigned built from character codes) is `Nat`;
* byte-level persistence (`CacheableWriter` / `CacheableReader`, whose code is
  not in the repository) is modelled as a list of typed tokens, one token per
  primitive write.
-/

set_option maxRecDepth 8192

namespace MegaSDK

/-- 64-bit node/user handle (`handle` in the source). -/
abbrev Handle := Nat

/-- `UNDEF` sentinel handle (all-ones 64-bit value in the source). -/
def UNDEF : Handle := 18446744073709551615

/-- The `MAKENAMEID*` macros pack character codes into an integer, one byte
per character. -/
def mkid (l : List Nat) : Nat := l.foldl (fun a c => a * 256 + c) 0

/-- `UserAlert::type_ipc` — incoming pending contact (`'i' 'p' 'c'`). -/
def type_ipc : Nat := mkid [105, 112, 99]

/-- `UserAlert::type_c` — contact change (`'c'`). -/
def type_c : Nat := mkid [99]

/-- `UserAlert::type_upci` — updating pending contact incoming. -/
def type_upci : Nat := mkid [117, 112, 99, 105]

/-- `UserAlert::type_upco` — updating pending contact outgoing. -/
def type_upco : Nat := mkid [117, 112, 99, 111]

/-- `UserAlert::type_share` — new share. -/
def type_share : Nat := mkid [115, 104, 97, 114, 101]

/-- `UserAlert::type_dshare` — deleted share. -/
def type_dshare : Nat := mkid [100, 115, 104, 97, 114, 101]

/-- `UserAlert::type_put` — new shared nodes. -/
def type_put : Nat := mkid [112, 117, 116]

/-- `UserAlert::type_d` — removed shared node. -/
def type_d : Nat := mkid [100]

/-- `UserAlert::type_u` — updated shared node. -/
def type_u : Nat := mkid [117]

/-- `UserAlert::type_psts` — payment. -/
def type_psts : Nat := mkid [112, 115, 116, 115]

/-- `UserAlert::type_pses` — payment reminder. -/
def type_pses : Nat := mkid [112, 115, 101, 115]

/-- `UserAlert::type_ph` — takedown. -/
def type_ph : Nat := mkid [112, 104]

/-- `UserAlert::type_nusm` — new or updated scheduled meeting
(`MAKENAMEID5('m','c','s','m','p')`). -/
def type_nusm : Nat := mkid [109, 99, 115, 109, 112]

/-- `UserAlert::type_dsm` — deleted scheduled meeting
(`MAKENAMEID5('m','c','s','m','r')`). -/
def type_dsm : Nat := mkid [109, 99, 115, 109, 114]

/-- The C++ conversion from `int` to a 32-bit `unsigned`, as performed by
`static_cast<unsigned>(changeType)` and by binding an `int` argument to a
`const unsigned&` parameter: reduction modulo 2^32. -/
def intToUnsigned (i : Int) : Nat := (i % 4294967296).toNat

/-- Token stream standing for the byte stream produced by `CacheableWriter`;
one token per primitive write (`serializeu32` / `serializehandle` /
`serializestring` / bool / compressed i64). -/
inductive Tok
  /-- an unsigned integer or handle field -/
  | un (v : Nat)
  /-- a signed integer field -/
  | sg (v : Int)
  /-- a string field -/
  | st (v : String)
  /-- a boolean field -/
  | bl (v : Bool)
deriving DecidableEq, Repr

/-! ### UserAlert::UpdatedScheduledMeeting::Changeset (useralerts.h:357-419) -/

/-- `Changeset::CHANGE_TYPE_TITLE` (first enumerator). -/
def CHANGE_TYPE_TITLE : Nat := 0

/-- `Changeset::CHANGE_TYPE_SIZE` — seven change kinds precede it. -/
def CHANGE_TYPE_SIZE : Nat := 7

/-- `UserAlert::UpdatedScheduledMeeting::Changeset`: a
`std::bitset<CHANGE_TYPE_SIZE>` of changed fields (kept as a `Nat` bit mask:
only bits `0..6` are ever set by the operations) together with the optional
old/new title pair (`unique_ptr<TitleChangeset>`). -/
structure Changeset where
  mUpdatedFields : Nat
  mUpdatedTitle : Option (String × String)
deriving DecidableEq, Repr

/-- `Changeset::isValidChange` (useralerts.h:404-405):
`static_cast<unsigned>(changeType) < static_cast<unsigned>(CHANGE_TYPE_SIZE)`. -/
def Changeset.isValidChange (changeType : Int) : Bool :=
  if intToUnsigned changeType < CHANGE_TYPE_SIZE then true else false

/-- `Changeset::hasChanged` (useralerts.h:377-378):
`isValidChange(changeType) ? mUpdatedFields[changeType] : false`. -/
def Changeset.hasChanged (cs : Changeset) (changeType : Int) : Bool :=
  if Changeset.isValidChange changeType then
    cs.mUpdatedFields.testBit (intToUnsigned changeType)
  else false

/-- Modelled from the spec: `Changeset::addChange` (declared at
useralerts.h:380, body not in the repository).  For a valid change type the
corresponding bit is set, and for `CHANGE_TYPE_TITLE` the old/new title pair
is recorded ("title flag set implies title pair present" is enforced); an
out-of-range index is a benign failure performing no mutation. -/
def Changeset.addChange (cs : Changeset) (changeType : Int)
    (oldValue newValue : String) : Changeset :=
  if Changeset.isValidChange changeType then
    { mUpdatedFields := cs.mUpdatedFields ||| (1 <<< intToUnsigned changeType),
      mUpdatedTitle :=
        if intToUnsigned changeType = CHANGE_TYPE_TITLE then some (oldValue, newValue)
        else cs.mUpdatedTitle }
  else cs

/-- `Changeset::replaceCurrent` (useralerts.h:407-415): copies the bit set
and, when the source holds a title pair, deep-copies it; a destination title
pair is kept when the source has none. -/
def Changeset.replaceCurrent (dst src : Changeset) : Changeset :=
  { mUpdatedFields := src.mUpdatedFields,
    mUpdatedTitle :=
      match src.mUpdatedTitle with
      | some p => some p
      | none => dst.mUpdatedTitle }

/-- `Changeset::invariant` (useralerts.h:397-402).  The first clause of the
source invariant, `mUpdatedFields.size() == CHANGE_TYPE_SIZE`, is structural
for `std::bitset<CHANGE_TYPE_SIZE>` and always true, so the embedded invariant
is the second clause: if the title bit is set, the title pair is present. -/
def Changeset.invariantB (cs : Changeset) : Bool :=
  if cs.mUpdatedFields.testBit CHANGE_TYPE_TITLE then cs.mUpdatedTitle.isSome
  else true

/-- Modelled from the spec: the persisted payload of a scheduled-meeting
update encodes the changed-field flag set followed by the title old/new pair
exactly when the title flag is set (`UpdatedScheduledMeeting::serialize`,
body not in the repository). -/
def Changeset.serializeCS (cs : Changeset) : List Tok :=
  Tok.un cs.mUpdatedFields ::
    (if cs.mUpdatedFields.testBit CHANGE_TYPE_TITLE then
      (match cs.mUpdatedTitle with
       | some p => [Tok.st p.1, Tok.st p.2]
       | none => [])
    else [])

/-- Modelled from the spec: decoder matching `Changeset.serializeCS`; the
title pair is read back exactly when the title flag is set. -/
def Changeset.parseCS : List Tok → Option (Changeset × List Tok)
  | Tok.un flags :: rest =>
    if flags.testBit CHANGE_TYPE_TITLE then
      match rest with
      | Tok.st o :: Tok.st nv :: rest2 => some (⟨flags, some (o, nv)⟩, rest2)
      | _ => none
    else some (⟨flags, none⟩, rest)
  | _ => none

/-- Number of string tokens in a token list (observation used to state that a
changeset encoding carries a title pair). -/
def countStrToks : List Tok → Nat
  | [] => 0
  | Tok.st _ :: rest => 1 + countStrToks rest
  | _ :: rest => countStrToks rest

/-- The `Changeset` values reachable through the public operations of the
class: default construction, construction from a bit set and title pair
(body not in the repository; modelled from the spec, which states the
title-flag/title-pair invariant is enforced for it), `addChange`, and
copy/move construction and assignment (all of which funnel through
`replaceCurrent` or field transfer). -/
inductive Changeset.Reached : Changeset → Prop
  /-- `Changeset() = default`: empty bit set, no title pair. -/
  | default : Changeset.Reached ⟨0, none⟩
  /-- the `Changeset(bitset, titleCS)` constructor; the spec states the
  invariant "title flag set implies title pair present" is enforced for
  constructed values, and the bit set has width `CHANGE_TYPE_SIZE`. -/
  | fromBits (bs : Nat) (t : Option (String × String))
      (ht : bs.testBit CHANGE_TYPE_TITLE = true → t.isSome = true) :
      Changeset.Reached ⟨bs, t⟩
  /-- `addChange` on a reachable value. -/
  | add (cs : Changeset) (ct : Int) (o nv : String) :
      Changeset.Reached cs → Changeset.Reached (cs.addChange ct o nv)
  /-- copy construction/assignment (`replaceCurrent`); move operations
  transfer the source fields and are the `dst = ⟨0, none⟩` instance. -/
  | copy (dst src : Changeset) : Changeset.Reached dst →
      Changeset.Reached src → Changeset.Reached (dst.replaceCurrent src)

/-! ### CommonSE / Set / SetElement change tracking (setandelement.h) -/

/-- `Set::CH_SIZE` (setandelement.h:234-242): four change kinds. -/
def CH_SIZE : Nat := 4

/-- `SetElement::CH_EL_SIZE` (setandelement.h:172-180): four change kinds. -/
def CH_EL_SIZE : Nat := 4

/-- `CommonSE::validChangeType` (setandelement.h:104):
`{ assert(typ < typMax); return typ < typMax; }`.  The first component
records whether the `assert` expression is violated (the assertion fires in a
debug build); the second is the returned value. -/
def validChangeTypeChecked (typ typMax : Nat) : Bool × Bool :=
  ((if typ < typMax then false else true), (if typ < typMax then true else false))

/-- The change bit set of a `Set` (`std::bitset<CH_SIZE> mChanges`). -/
structure SetModel where
  mChanges : Nat
deriving DecidableEq, Repr

/-- `Set::hasChanged` (setandelement.h:229):
`validChangeType(changeType, CH_SIZE) ? mChanges[changeType] : false`.
First component: whether the assert in `validChangeType` fired. -/
def SetModel.hasChanged (s : SetModel) (changeType : Int) : Bool × Bool :=
  let v := validChangeTypeChecked (intToUnsigned changeType) CH_SIZE
  (v.1, if v.2 then s.mChanges.testBit (intToUnsigned changeType) else false)

/-- `Set::setChanged` (setandelement.h:220):
`if (validChangeType(changeType, CH_SIZE)) mChanges[changeType] = 1;`.
First component: whether the assert in `validChangeType` fired. -/
def SetModel.setChanged (s : SetModel) (changeType : Int) : Bool × SetModel :=
  let v := validChangeTypeChecked (intToUnsigned changeType) CH_SIZE
  (v.1, if v.2 then ⟨s.mChanges ||| (1 <<< intToUnsigned changeType)⟩ else s)

/-- The change bit set of a `SetElement` (`std::bitset<CH_EL_SIZE> mChanges`). -/
structure ElemModel where
  mChanges : Nat
deriving DecidableEq, Repr

/-- `SetElement::hasChanged` (setandelement.h:167). -/
def ElemModel.hasChanged (s : ElemModel) (changeType : Int) : Bool × Bool :=
  let v := validChangeTypeChecked (intToUnsigned changeType) CH_EL_SIZE
  (v.1, if v.2 then s.mChanges.testBit (intToUnsigned changeType) else false)

/-- `SetElement::setChanged` (setandelement.h:158). -/
def ElemModel.setChanged (s : ElemModel) (changeType : Int) : Bool × ElemModel :=
  let v := validChangeTypeChecked (intToUnsigned changeType) CH_EL_SIZE
  (v.1, if v.2 then ⟨s.mChanges ||| (1 <<< intToUnsigned changeType)⟩ else s)

/-! ### ScheduledMeetingBase (useralerts.h:304-341) -/

/-- `ScheduledMeetingBase::SCHEDULED_USER_ALERT_INVALID`. -/
def SCHEDULED_USER_ALERT_INVALID : Nat := 0

/-- `ScheduledMeetingBase::SCHEDULED_USER_ALERT_NEW`. -/
def SCHEDULED_USER_ALERT_NEW : Nat := 1

/-- `ScheduledMeetingBase::SCHEDULED_USER_ALERT_UPDATE`. -/
def SCHEDULED_USER_ALERT_UPDATE : Nat := 2

/-- `ScheduledMeetingBase::SCHEDULED_USER_ALERT_DELETED`. -/
def SCHEDULED_USER_ALERT_DELETED : Nat := 3

/-- The fields of `UserAlert::ScheduledMeetingBase` (useralerts.h:314-316). -/
structure SMB where
  mSchedMeetingsSubtype : Nat
  mSchedMeetingHandle : Handle
  mParentSMHandle : Handle
deriving DecidableEq, Repr

/-- `ScheduledMeetingBase::serialize` (useralerts.h:327-340), inline in the
source: after the base-class fields (`d`), write the subtype and the meeting
handle, then the parent-series handle exactly when the subtype is
`SCHEDULED_USER_ALERT_NEW` or `SCHEDULED_USER_ALERT_UPDATE`. -/
def SMB.serializeSMB (b : SMB) (d : List Tok) : List Tok :=
  d ++ [Tok.un b.mSchedMeetingsSubtype, Tok.un b.mSchedMeetingHandle] ++
    (if b.mSchedMeetingsSubtype = SCHEDULED_USER_ALERT_NEW
        ∨ b.mSchedMeetingsSubtype = SCHEDULED_USER_ALERT_UPDATE then
      [Tok.un b.mParentSMHandle]
    else [])

/-- The `DeletedScheduledMeeting(handle _ou, m_time_t _ts, unsigned _id,
handle _sm)` value constructor (useralerts.h:438-440), inline in the source:
it forwards `UNDEF` as the parent handle and `SCHEDULED_USER_ALERT_NEW` as the
scheduled-meeting subtype. -/
def DeletedScheduledMeeting.construct (sm : Handle) : SMB :=
  ⟨SCHEDULED_USER_ALERT_NEW, sm, UNDEF⟩

/-! ### The alert taxonomy (useralerts.h:138-445) -/

/-- Kind-specific payload of an alert: one constructor per concrete
`UserAlert::Base` subclass, carrying the subclass's own fields. -/
inductive Payload
  /-- `IncomingPendingContact`: pcr handle, deleted/reminded markers. -/
  | incomingPendingContact (mPcrHandle : Handle)
      (requestWasDeleted requestWasReminded : Bool)
  /-- `ContactChange`: action code. -/
  | contactChange (action : Int)
  /-- `UpdatedPendingContactIncoming`: action code. -/
  | updatedPendingContactIncoming (action : Int)
  /-- `UpdatedPendingContactOutgoing`: action code. -/
  | updatedPendingContactOutgoing (action : Int)
  /-- `NewShare`: shared folder handle. -/
  | newShare (folderhandle : Handle)
  /-- `DeletedShare`: folder handle, path/name snapshot, owner handle. -/
  | deletedShare (folderHandle : Handle) (folderPath folderName : String)
      (ownerHandle : Handle)
  /-- `NewSharedNodes`: parent folder plus file and folder node handles. -/
  | newSharedNodes (parentHandle : Handle)
      (fileNodeHandles folderNodeHandles : List Handle)
  /-- `RemovedSharedNode`: removed node handles. -/
  | removedSharedNode (nodeHandles : List Handle)
  /-- `UpdatedSharedNode`: updated node handles. -/
  | updatedSharedNode (nodeHandles : List Handle)
  /-- `Payment`: success flag and plan number. -/
  | payment (success : Bool) (planNumber : Int)
  /-- `PaymentReminder`: expiry time. -/
  | paymentReminder (expiryTime : Int)
  /-- `Takedown`: takedown/reinstate flags and node handle. -/
  | takedown (isTakedown isReinstate : Bool) (nodeHandle : Handle)
  /-- `NewScheduledMeeting`: meeting handle and parent-series handle
  (subtype is fixed to `SCHEDULED_USER_ALERT_NEW` by its constructor). -/
  | newScheduledMeeting (sm parentSM : Handle)
  /-- `UpdatedScheduledMeeting`: meeting handle, parent-series handle, and
  the field-level changeset (subtype fixed to `SCHEDULED_USER_ALERT_UPDATE`). -/
  | updatedScheduledMeeting (sm parentSM : Handle) (cs : Changeset)
  /-- `DeletedScheduledMeeting`: meeting handle (its constructor fixes the
  subtype to `SCHEDULED_USER_ALERT_NEW` and the parent to `UNDEF`). -/
  | deletedScheduledMeeting (sm : Handle)
deriving DecidableEq, Repr

/-- `UserAlert::Base::type` as determined by each subclass's constructor. -/
def Payload.typeOf : Payload → Nat
  | .incomingPendingContact _ _ _ => type_ipc
  | .contactChange _ => type_c
  | .updatedPendingContactIncoming _ => type_upci
  | .updatedPendingContactOutgoing _ => type_upco
  | .newShare _ => type_share
  | .deletedShare _ _ _ _ => type_dshare
  | .newSharedNodes _ _ _ => type_put
  | .removedSharedNode _ => type_d
  | .updatedSharedNode _ => type_u
  | .payment _ _ => type_psts
  | .paymentReminder _ => type_pses
  | .takedown _ _ _ => type_ph
  | .newScheduledMeeting _ _ => type_nusm
  | .updatedScheduledMeeting _ _ _ => type_nusm
  | .deletedScheduledMeeting _ => type_dsm

/-- A user alert: the shared `UserAlert::Base` state (useralerts.h:83-136) —
the persisted `Persistent` block (timestamp, user handle, email, relevant,
seen), the runtime `tag` and `id`, and the transient `mRemoved` marker —
together with the kind-specific payload. -/
structure UAlert where
  payload : Payload
  timestamp : Int
  userHandle : Handle
  userEmail : String
  relevant : Bool
  seen : Bool
  tag : Int
  id : Nat
  mRemoved : Bool
deriving DecidableEq, Repr

/-- Modelled from the spec: the `Base(nameid t, handle uh, const string&
email, m_time_t timestamp, unsigned int id)` constructor (body not in the
repository) stores its arguments in the `Persistent` block, whose remaining
members keep their in-header initializers `relevant = true`, `seen = false`
(useralerts.h:127-128), and `mRemoved` keeps its initializer `false`
(useralerts.h:135). -/
def mkAlert (pl : Payload) (uh : Handle) (email : String) (ts : Int)
    (i : Nat) : UAlert :=
  { payload := pl, timestamp := ts, userHandle := uh, userEmail := email,
    relevant := true, seen := false, tag := 0, id := i, mRemoved := false }

/-- `Base::setSeen` (useralerts.h:99). -/
def UAlert.setSeen (a : UAlert) (s : Bool) : UAlert := { a with seen := s }

/-- `Base::setRelevant` (useralerts.h:95). -/
def UAlert.setRelevant (a : UAlert) (r : Bool) : UAlert := { a with relevant := r }

/-- `Base::setEmail` (useralerts.h:91). -/
def UAlert.setEmail (a : UAlert) (eml : String) : UAlert := { a with userEmail := eml }

/-- `Base::setRemoved` (useralerts.h:118): the only writer of `mRemoved`. -/
def UAlert.setRemoved (a : UAlert) : UAlert := { a with mRemoved := true }

/-! ### Persistence (spec section 4.5 / 6; serialize bodies not in the
repository except `ScheduledMeetingBase::serialize`) -/

/-- Modelled from the spec: the shared common-field record prefix
`[type_tag][timestamp][user_handle][email][relevant][seen]` written by
`Base::serialize` (declared at useralerts.h:131).  The transient `mRemoved`
marker and the runtime `tag`/`id` are not part of the byte stream (ids are
persisted as the database record id, passed separately to `unserialize`). -/
def serializeCommonFields (a : UAlert) : List Tok :=
  [Tok.un a.payload.typeOf, Tok.sg a.timestamp, Tok.un a.userHandle,
   Tok.st a.userEmail, Tok.bl a.relevant, Tok.bl a.seen]

/-- Modelled from the spec: a count-prefixed list of node handles, as in
"Node-alert payloads encode a count-prefixed list of unique handles". -/
def serializeHandleList (hs : List Handle) : List Tok :=
  Tok.un hs.length :: hs.map Tok.un

/-- Modelled from the spec: kind-specific payload bytes following the common
prefix; each subclass writes its own fields in declaration order, the
scheduled-meeting kinds going through `ScheduledMeetingBase::serialize`
(which is inline in the source, embedded as `SMB.serializeSMB`). -/
def Payload.serializePL : Payload → List Tok
  | .incomingPendingContact p d r => [Tok.un p, Tok.bl d, Tok.bl r]
  | .contactChange action => [Tok.sg action]
  | .updatedPendingContactIncoming action => [Tok.sg action]
  | .updatedPendingContactOutgoing action => [Tok.sg action]
  | .newShare fh => [Tok.un fh]
  | .deletedShare fh fp fn oh => [Tok.un fh, Tok.st fp, Tok.st fn, Tok.un oh]
  | .newSharedNodes p fs ds =>
      Tok.un p :: (serializeHandleList fs ++ serializeHandleList ds)
  | .removedSharedNode hs => serializeHandleList hs
  | .updatedSharedNode hs => serializeHandleList hs
  | .payment s plan => [Tok.bl s, Tok.sg plan]
  | .paymentReminder t => [Tok.sg t]
  | .takedown td ri nh => [Tok.bl td, Tok.bl ri, Tok.un nh]
  | .newScheduledMeeting sm parentSM =>
      SMB.serializeSMB ⟨SCHEDULED_USER_ALERT_NEW, sm, parentSM⟩ []
  | .updatedScheduledMeeting sm parentSM cs =>
      SMB.serializeSMB ⟨SCHEDULED_USER_ALERT_UPDATE, sm, parentSM⟩ [] ++
        cs.serializeCS
  | .deletedScheduledMeeting sm =>
      SMB.serializeSMB (DeletedScheduledMeeting.construct sm) []

/-- `serialize`: the common prefix followed by the kind-specific payload. -/
def serializeAlert (a : UAlert) : List Tok :=
  serializeCommonFields a ++ a.payload.serializePL

/-- Reads `n` handles written by `serializeHandleList`'s element part. -/
def readHandles : Nat → List Tok → Option (List Handle × List Tok)
  | 0, rest => some ([], rest)
  | k + 1, Tok.un h :: rest =>
      match readHandles k rest with
      | some (hs, r) => some (h :: hs, r)
      | none => none
  | _ + 1, _ => none

/-- Reads a count-prefixed handle list. -/
def readHandleList : List Tok → Option (List Handle × List Tok)
  | Tok.un n :: rest => readHandles n rest
  | _ => none

/-- Modelled from the spec: per-kind payload decoding, dispatching on the
type tag exactly as the per-kind `unserialize` functions do. -/
def parsePayload (t : Nat) (toks : List Tok) : Option (Payload × List Tok) :=
  if t = type_ipc then
    match toks with
    | Tok.un p :: Tok.bl d :: Tok.bl r :: rest =>
        some (.incomingPendingContact p d r, rest)
    | _ => none
  else if t = type_c then
    match toks with
    | Tok.sg action :: rest => some (.contactChange action, rest)
    | _ => none
  else if t = type_upci then
    match toks with
    | Tok.sg action :: rest => some (.updatedPendingContactIncoming action, rest)
    | _ => none
  else if t = type_upco then
    match toks with
    | Tok.sg action :: rest => some (.updatedPendingContactOutgoing action, rest)
    | _ => none
  else if t = type_share then
    match toks with
    | Tok.un fh :: rest => some (.newShare fh, rest)
    | _ => none
  else if t = type_dshare then
    match toks with
    | Tok.un fh :: Tok.st fp :: Tok.st fn :: Tok.un oh :: rest =>
        some (.deletedShare fh fp fn oh, rest)
    | _ => none
  else if t = type_put then
    match toks with
    | Tok.un p :: rest =>
        match readHandleList rest with
        | some (fs, rest2) =>
            match readHandleList rest2 with
            | some (ds, rest3) => some (.newSharedNodes p fs ds, rest3)
            | none => none
        | none => none
    | _ => none
  else if t = type_d then
    match readHandleList toks with
    | some (hs, rest) => some (.removedSharedNode hs, rest)
    | none => none
  else if t = type_u then
    match readHandleList toks with
    | some (hs, rest) => some (.updatedSharedNode hs, rest)
    | none => none
  else if t = type_psts then
    match toks with
    | Tok.bl s :: Tok.sg plan :: rest => some (.payment s plan, rest)
    | _ => none
  else if t = type_pses then
    match toks with
    | Tok.sg e :: rest => some (.paymentReminder e, rest)
    | _ => none
  else if t = type_ph then
    match toks with
    | Tok.bl td :: Tok.bl ri :: Tok.un nh :: rest => some (.takedown td ri nh, rest)
    | _ => none
  else if t = type_nusm then
    match toks with
    | Tok.un st_ :: Tok.un sm :: rest =>
        if st_ = SCHEDULED_USER_ALERT_NEW then
          match rest with
          | Tok.un parentSM :: rest2 => some (.newScheduledMeeting sm parentSM, rest2)
          | _ => none
        else if st_ = SCHEDULED_USER_ALERT_UPDATE then
          match rest with
          | Tok.un parentSM :: rest2 =>
              match Changeset.parseCS rest2 with
              | some (cs, rest3) =>
                  some (.updatedScheduledMeeting sm parentSM cs, rest3)
              | none => none
          | _ => none
        else none
    | _ => none
  else if t = type_dsm then
    match toks with
    | Tok.un st_ :: Tok.un sm :: rest =>
        if st_ = SCHEDULED_USER_ALERT_NEW ∨ st_ = SCHEDULED_USER_ALERT_UPDATE then
          match rest with
          | Tok.un _parentSM :: rest2 => some (.deletedScheduledMeeting sm, rest2)
          | _ => none
        else some (.deletedScheduledMeeting sm, rest)
    | _ => none
  else none

/-- Modelled from the spec: `unserialize` — decode the common prefix,
dispatch on the tag, decode the payload, and rebuild the alert; the id comes
from the database record (`unserializeAlert(string*, uint32_t dbid)`), and
`mRemoved` is not persisted, so a loaded alert is not marked removed. -/
def unserializeAlert (toks : List Tok) (dbid : Nat) : Option UAlert :=
  match toks with
  | Tok.un t :: Tok.sg ts :: Tok.un uh :: Tok.st em :: Tok.bl rel :: Tok.bl sn :: rest =>
      match parsePayload t rest with
      | some (pl, rest2) =>
          if rest2 = [] then
            some { payload := pl, timestamp := ts, userHandle := uh,
                   userEmail := em, relevant := rel, seen := sn,
                   tag := 0, id := dbid, mRemoved := false }
          else none
      | none => none
  | _ => none

/-- Well-formedness used by the round-trip statement: an
`UpdatedScheduledMeeting` changeset carries its title pair exactly when the
title flag is set (the direction "flag implies pair" is the class invariant;
the converse excludes a stale pair that the encoding deliberately drops). -/
def UAlert.wf (a : UAlert) : Prop :=
  match a.payload with
  | .updatedScheduledMeeting _ _ cs =>
      cs.mUpdatedFields.testBit CHANGE_TYPE_TITLE = cs.mUpdatedTitle.isSome
  | _ => True

/-! ### List helpers mirroring the container operations used by the engine -/

/-- Membership test on a handle list (`std::find`-style lookup). -/
def hmem (h : Handle) : List Handle → Bool
  | [] => false
  | x :: xs => if x = h then true else hmem h xs

/-- Erase every occurrence of a handle from a handle list (the engine's
payload-erasure step). -/
def herase : List Handle → Handle → List Handle
  | [], _ => []
  | x :: xs, h => if x = h then herase xs h else x :: herase xs h

/-- Duplicate-free union: the existing handles followed by the incoming ones
not already present (the merge step "union the node-handle sets"). -/
def hunion (old new : List Handle) : List Handle :=
  old ++ new.filter (fun h => !hmem h old)

/-- Insert-or-replace into a `map<handle, nameid>` association list
(`alertTypePerFileNode[h] = alertType`). -/
def assocInsert : List (Handle × Nat) → Handle → Nat → List (Handle × Nat)
  | [], k, v => [(k, v)]
  | p :: rest, k, v =>
      if p.1 = k then (k, v) :: rest else p :: assocInsert rest k v

/-! ### UserAlerts engine state (useralerts.h:463-593) -/

/-- `UserAlerts::ff` (useralerts.h:489-507): per-(user, parent) aggregation of
noted nodes — a timestamp and a handle-to-alert-type map per node category. -/
structure FF where
  timestamp : Int
  alertTypePerFileNode : List (Handle × Nat)
  alertTypePerFolderNode : List (Handle × Nat)
deriving DecidableEq, Repr

/-- `ff::fileHandles` (useralerts.h:494-499): the keys of the file map. -/
def FF.fileHandles (f : FF) : List Handle := f.alertTypePerFileNode.map Prod.fst

/-- `ff::folderHandles` (useralerts.h:501-506): the keys of the folder map. -/
def FF.folderHandles (f : FF) : List Handle := f.alertTypePerFolderNode.map Prod.fst

/-- Insert-or-update into the `map<pair<handle, handle>, ff>` used for the
noted and stashed shared-node maps (`notedSharedNodes[key]` with default
construction on a missing key). -/
def ffUpsert (m : List ((Handle × Handle) × FF)) (k : Handle × Handle)
    (f : FF → FF) : List ((Handle × Handle) × FF) :=
  match m with
  | [] => [(k, f ⟨0, [], []⟩)]
  | p :: rest =>
      if p.1 = k then (k, f p.2) :: rest else p :: ffUpsert rest k f

/-- The fate of an id drawn from the `nextid` counter: committed to the alert
log, or consumed by a candidate that was merged into an existing alert. -/
inductive IdEvent
  /-- the candidate carrying this id was appended to the log -/
  | committed (i : Nat)
  /-- the candidate carrying this id was merged away -/
  | merged (i : Nat)
deriving DecidableEq, Repr

/-- The id carried by an `IdEvent`. -/
def IdEvent.eventId : IdEvent → Nat
  | .committed i => i
  | .merged i => i

/-- Whether an `IdEvent` is a commit. -/
def IdEvent.isCommitted : IdEvent → Bool
  | .committed _ => true
  | .merged _ => false

/-- The `UserAlerts` engine state (useralerts.h:463-593): the monotonic id
counter, the bounded alert log (oldest first, newest at the end), the
non-owning notify queue (kept as the ids of the referenced alerts), the
catch-up flags, the provisional gate, and the two noted-shared-node maps.
`trimmedAlerts` records the entries trimmed from the head of the log after
being marked removed (the persistence-cleanup side of `trimAlertsToMaxCount`),
and `idLog` records the fate of every id drawn from `nextid`. -/
structure Engine where
  nextid : Nat
  alerts : List UAlert
  notify : List Nat
  trimmedAlerts : List UAlert
  begincatchup : Bool
  catchupdone : Bool
  provisionalmode : Bool
  provisionals : List UAlert
  notedSharedNodes : List ((Handle × Handle) × FF)
  deletedSharedNodesStash : List ((Handle × Handle) × FF)
  notingSharedNodes : Bool
  idLog : List IdEvent

/-- The fresh engine state built by the `UserAlerts(MegaClient&)` constructor. -/
def initEngine : Engine :=
  { nextid := 0, alerts := [], notify := [], trimmedAlerts := [],
    begincatchup := false, catchupdone := false, provisionalmode := false,
    provisionals := [], notedSharedNodes := [], deletedSharedNodesStash := [],
    notingSharedNodes := false, idLog := [] }

/-- Maximum alert count kept by `trimAlertsToMaxCount` (useralerts.h:519:
"mark as removed the excess from 200"). -/
def maxAlertCount : Nat := 200

/-- Modelled from the spec: `UserAlerts::trimAlertsToMaxCount` (declared at
useralerts.h:519, body not in the repository): while the log holds more than
200 alerts, mark the head entry removed and pop it.  Returns the surviving
log and the marked-removed entries. -/
def trimAlerts : List UAlert → List UAlert × List UAlert
  | [] => ([], [])
  | a :: rest =>
      if rest.length + 1 > maxAlertCount then
        match trimAlerts rest with
        | (kept, rem) => (kept, a.setRemoved :: rem)
      else (a :: rest, [])

/-- Merge keys, as in the spec's DedupMerger: matching kind, same originating
user, and the kind's merge key (same parent folder for `NewSharedNodes`;
removed/updated shared-node alerts merge per user). -/
def combinesWith (c a : UAlert) : Bool :=
  match c.payload, a.payload with
  | .newSharedNodes p _ _, .newSharedNodes q _ _ =>
      (if c.userHandle = a.userHandle then true else false) &&
        (if p = q then true else false)
  | .removedSharedNode _, .removedSharedNode _ =>
      if c.userHandle = a.userHandle then true else false
  | .updatedSharedNode _, .updatedSharedNode _ =>
      if c.userHandle = a.userHandle then true else false
  | _, _ => false

/-- Modelled from the spec: `UserAlerts::findAlertToCombineWith` (declared at
useralerts.h:522, body not in the repository): search backward from the tail
of the store, bounded to alerts not yet flushed (not yet seen), for an alert
the candidate can merge into. -/
def findAlertToCombineWith (alerts : List UAlert) (c : UAlert) : Option UAlert :=
  (alerts.filter (fun a => !a.seen && combinesWith c a)).getLast?

/-- Modelled from the spec: the merge action — union the node-handle sets
and move the timestamp to the later of the two. -/
def combinePayload : Payload → Payload → Payload
  | .newSharedNodes p fs ds, .newSharedNodes _ fs2 ds2 =>
      .newSharedNodes p (hunion fs fs2) (hunion ds ds2)
  | .removedSharedNode hs, .removedSharedNode hs2 => .removedSharedNode (hunion hs hs2)
  | .updatedSharedNode hs, .updatedSharedNode hs2 => .updatedSharedNode (hunion hs hs2)
  | pl, _ => pl

/-- Applies the candidate `c` onto the merge target `a`. -/
def combineInto (c a : UAlert) : UAlert :=
  { a with payload := combinePayload a.payload c.payload,
           timestamp := max a.timestamp c.timestamp }

/-- Rewrites the alert with the given id in place (a mutation through the
deque iterator in the source). -/
def updateById (l : List UAlert) (i : Nat) (f : UAlert → UAlert) : List UAlert :=
  l.map (fun a => if a.id = i then f a else a)

/-- Enqueue an alert id for the app notify list without duplicating an entry
(the spec's "re-enqueue the alert in the notify queue as updated (not
duplicated)"). -/
def enqueue (notify : List Nat) (i : Nat) : List Nat :=
  if (notify.filter (fun j => if j = i then true else false)).length = 0 then
    notify ++ [i]
  else notify

/-- Erase one handle from `NewSharedNodes` / `RemovedSharedNode` payloads
(`eraseNodeHandleFromNewShareNodeAlert` /
`eraseNodeHandleFromRemovedSharedNode`, declared at useralerts.h:526-528,
bodies not in the repository; modelled from the spec). -/
def erasePayloadHandle (h : Handle) : Payload → Payload
  | .newSharedNodes p fs ds => .newSharedNodes p (herase fs h) (herase ds h)
  | .removedSharedNode hs => .removedSharedNode (herase hs h)
  | pl => pl

/-- Whether the alert holds the handle inside a `NewSharedNodes` payload
(`containsRemovedNodeAlert`'s dual for the new-share side). -/
def inNewSharedNodes (h : Handle) (a : UAlert) : Bool :=
  match a.payload with
  | .newSharedNodes _ fs ds => hmem h fs || hmem h ds
  | _ => false

/-- Modelled from the spec: ghost suppression over every handle being
removed — search current alerts for each handle inside a `NewSharedNodes` or
`RemovedSharedNode` payload and erase it there; a handle is kept for the new
`RemovedSharedNode` candidate only when it was not present in any
`NewSharedNodes` payload.  Returns the scrubbed store and the surviving
handles. -/
def ghostScrub (alerts : List UAlert) : List Handle → List UAlert × List Handle
  | [] => (alerts, [])
  | h :: hs =>
      let keep := !alerts.any (inNewSharedNodes h)
      let al1 := alerts.map (fun a => { a with payload := erasePayloadHandle h a.payload })
      let pr := ghostScrub al1 hs
      (pr.1, if keep = true then h :: pr.2 else pr.2)

/-- Commits a candidate: draw the next id (creation point of the alert),
then either merge into an existing unflushed alert — the drawn id is skipped
— or append at the tail, enqueue for notification, and trim the log to its
bound.  Modelled from the spec's DedupMerger/AlertStore contract. -/
def commitAlert (e : Engine) (c : UAlert) : Engine :=
  let cid := e.nextid
  let c2 := { c with id := cid }
  let e2 := { e with nextid := cid + 1 }
  match findAlertToCombineWith e2.alerts c2 with
  | some target =>
      { e2 with alerts := updateById e2.alerts target.id (combineInto c2),
                notify := enqueue e2.notify target.id,
                idLog := e2.idLog ++ [IdEvent.merged cid] }
  | none =>
      match trimAlerts (e2.alerts ++ [c2]) with
      | (kept, rem) =>
          { e2 with alerts := kept,
                    trimmedAlerts := e2.trimmedAlerts ++ rem,
                    notify := enqueue e2.notify cid,
                    idLog := e2.idLog ++ [IdEvent.committed cid] }

/-- `UserAlerts::add(UserAlert::Base*)` (declared at useralerts.h:550, body
not in the repository; modelled from the spec): in provisional mode the
candidate is buffered; a `RemovedSharedNode` candidate first undergoes ghost
suppression, and is dropped entirely when every handle was erased from a
`NewSharedNodes` payload; surviving candidates are merged or appended. -/
def addAlert (e : Engine) (c : UAlert) : Engine :=
  if e.provisionalmode = true then { e with provisionals := e.provisionals ++ [c] }
  else
    match c.payload with
    | .removedSharedNode hs =>
        match ghostScrub e.alerts hs with
        | (al2, []) => { e with alerts := al2 }
        | (al2, k :: ks) =>
            commitAlert { e with alerts := al2 }
              { c with payload := .removedSharedNode (k :: ks) }
    | _ => commitAlert e c

/-- `UserAlerts::beginNotingSharedNodes` (declared at useralerts.h:553):
opens an aggregation window. -/
def beginNotingSharedNodes (e : Engine) : Engine :=
  { e with notingSharedNodes := true }

/-- `UserAlerts::noteSharedNode` (declared at useralerts.h:554, body not in
the repository; modelled from the spec): while a window is open (and catch-up
is done), insert the node's handle into the live noted-map entry for
(user, parent), into the file or folder category by node type, and refresh
the entry timestamp.  The `ignoreNodesUnderShare` subtree guard needs the
node tree and is outside this model. -/
def noteSharedNode (e : Engine) (user : Handle) (isFolder : Bool) (ts : Int)
    (node parent : Handle) (alertType : Nat) : Engine :=
  if e.catchupdone = true ∧ e.notingSharedNodes = true then
    { e with notedSharedNodes :=
        ffUpsert e.notedSharedNodes (user, parent) (fun f =>
          if isFolder = true then
            { f with timestamp := ts, alertTypePerFolderNode :=
                assocInsert f.alertTypePerFolderNode node alertType }
          else
            { f with timestamp := ts, alertTypePerFileNode :=
                assocInsert f.alertTypePerFileNode node alertType }) }
  else e

/-- Builds the candidate alert for one noted (user, parent) entry:
`NewSharedNodes` with the aggregated file/folder handle lists for an added
batch, `RemovedSharedNode` with all aggregated handles for a removal batch. -/
def candidateOf (added : Bool) (key : Handle × Handle) (f : FF) : UAlert :=
  if added = true then
    mkAlert (.newSharedNodes key.2 f.fileHandles f.folderHandles) key.1 "" f.timestamp 0
  else
    mkAlert (.removedSharedNode (f.fileHandles ++ f.folderHandles)) key.1 "" f.timestamp 0

/-- `UserAlerts::convertNotedSharedNodes(bool, handle)` (declared at
useralerts.h:555, body not in the repository; modelled from the spec):
close the window, drain the live entries whose key matches the originating
user into candidate alerts fed through `add`, and divert removal entries of
other users into the stash. -/
def convertNotedSharedNodes (e : Engine) (added : Bool) (originatingUser : Handle) :
    Engine :=
  let mine := e.notedSharedNodes.filter
    (fun kv => if kv.1.1 = originatingUser then true else false)
  let others := e.notedSharedNodes.filter
    (fun kv => if kv.1.1 = originatingUser then false else true)
  let e2 := { e with
    notedSharedNodes := if added = true then others else [],
    deletedSharedNodesStash :=
      if added = true then e.deletedSharedNodesStash
      else e.deletedSharedNodesStash ++ others,
    notingSharedNodes := false }
  (mine.map (fun kv => candidateOf added kv.1 kv.2)).foldl addAlert e2

/-- `UserAlerts::startprovisional` (declared at useralerts.h:560, body not in
the repository; modelled from the spec): enter buffering. -/
def startprovisional (e : Engine) : Engine :=
  { e with provisionalmode := true }

/-- `UserAlerts::evalprovisional` (declared at useralerts.h:561, body not in
the repository; modelled from the spec): leave buffering, run the per-kind
validity check (`checkprovisional`, which consults the client state and is a
parameter here) on each buffered alert, commit the valid ones through the
normal merge/append path, and discard the invalid ones without trace. -/
def evalprovisional (e : Engine) (valid : Handle → UAlert → Bool)
    (originatinguser : Handle) : Engine :=
  let buffered := e.provisionals
  let e2 := { e with provisionalmode := false, provisionals := [] }
  (buffered.filter (valid originatinguser)).foldl addAlert e2

/-- `UserAlerts::clear` (declared at useralerts.h:592, body not in the
repository; modelled from the spec: "resets to Idle, discarding any buffered
provisional alerts" and clearing the noting state). -/
def clearUA (e : Engine) : Engine :=
  { e with begincatchup := false, catchupdone := false,
           provisionalmode := false, provisionals := [],
           notedSharedNodes := [], deletedSharedNodesStash := [],
           notingSharedNodes := false }

/-- `UserAlerts::acknowledgeAll` (declared at useralerts.h:586, body not in
the repository; modelled from the spec: marks every alert seen). -/
def acknowledgeAll (e : Engine) : Engine :=
  { e with alerts := e.alerts.map (fun a => a.setSeen true) }

/-- Completion of the catch-up query (`catchupdone` set once the sc50 reply
is processed). -/
def catchupComplete (e : Engine) : Engine :=
  { e with catchupdone := true, begincatchup := false }

/-- The mutating operations of the engine interface. -/
inductive Op
  /-- `add` a candidate alert built from an action packet or raw record -/
  | add (c : UAlert)
  /-- `beginNotingSharedNodes` -/
  | beginNoting
  /-- `noteSharedNode user isFolder ts node parent alertType` -/
  | note (user : Handle) (isFolder : Bool) (ts : Int) (node parent : Handle)
      (alertType : Nat)
  /-- `convertNotedSharedNodes added originatingUser` -/
  | convert (added : Bool) (originatingUser : Handle)
  /-- `startprovisional` -/
  | startProv
  /-- `evalprovisional` with the per-kind validity check -/
  | evalProv (valid : Handle → UAlert → Bool) (originatinguser : Handle)
  /-- `clear` -/
  | clear
  /-- `acknowledgeAll` -/
  | ackAll
  /-- completion of the catch-up query -/
  | catchupDone

/-- One engine step. -/
def stepOp (e : Engine) : Op → Engine
  | .add c => addAlert e c
  | .beginNoting => beginNotingSharedNodes e
  | .note u isF ts n p ty => noteSharedNode e u isF ts n p ty
  | .convert added u => convertNotedSharedNodes e added u
  | .startProv => startprovisional e
  | .evalProv valid ou => evalprovisional e valid ou
  | .clear => clearUA e
  | .ackAll => acknowledgeAll e
  | .catchupDone => catchupComplete e

/-- Runs a sequence of operations. -/
def runOps (e : Engine) (ops : List Op) : Engine := ops.foldl stepOp e

/-- The ids of the alerts in a log, in log order. -/
def alertIds (l : List UAlert) : List Nat := l.map (fun a => a.id)

/-- Whether an alert's payload references a node handle inside a
`NewSharedNodes` or `RemovedSharedNode` payload. -/
def mentionsNode (h : Handle) (a : UAlert) : Bool :=
  match a.payload with
  | .newSharedNodes _ fs ds => hmem h fs || hmem h ds
  | .removedSharedNode hs => hmem h hs
  | _ => false

/-- Whether an alert is a `RemovedSharedNode` alert. -/
def isRemovedSharedNodeAlert (a : UAlert) : Bool :=
  match a.payload with
  | .removedSharedNode _ => true
  | _ => false

/-- The ids of the committed alerts, in commit order. -/
def committedIds (log : List IdEvent) : List Nat :=
  (log.filter IdEvent.isCommitted).map IdEvent.eventId

/-- Engine well-formedness: the log is bounded, its ids strictly increase
from head (oldest) to tail (newest), every id in it was drawn from the
counter, the drawn ids are exactly `0, 1, …, nextid - 1` in drawing order,
and every trimmed-away entry is marked removed. -/
def EInv (e : Engine) : Prop :=
  e.alerts.length ≤ maxAlertCount ∧
  List.Pairwise (· < ·) (alertIds e.alerts) ∧
  (∀ i ∈ alertIds e.alerts, i < e.nextid) ∧
  e.idLog.map IdEvent.eventId = List.range e.nextid ∧
  (∀ a ∈ e.trimmedAlerts, a.mRemoved = true)

/-- Operation script for two node-add events with the same originating user
and parent folder: each event is noted and converted in its own noting
window, the second arriving while the alert from the first is still
unflushed. -/
def c4Ops (U P H1 H2 : Handle) (t1 t2 : Int) : List Op :=
  [.beginNoting, .note U false t1 H1 P type_put, .convert true U,
   .beginNoting, .note U false t2 H2 P type_put, .convert true U]

/-- Operation script: a node handle noted as added and then noted as deleted
within one noting window — before any conversion boundary runs — and then
converted as a removal for the same user. -/
def c1NoteAddDeleteOps : List Op :=
  [.catchupDone, .beginNoting, .note 1 false 10 5 2 type_put,
   .note 1 false 11 5 2 type_d, .convert false 1]

/-- Operation script: a node handle noted as added and converted — committed
into a still-unflushed `NewSharedNodes` alert — then noted as deleted and
converted as a removal for the same user. -/
def c1GhostOps (U P H : Handle) (t1 t2 : Int) : List Op :=
  [.beginNoting, .note U false t1 H P type_put, .convert true U,
   .beginNoting, .note U false t2 H P type_d, .convert false U]

/-- Sample alert used to evaluate the round-trip statement on a concrete
input (an `UpdatedScheduledMeeting` with a changed title, already marked
removed so that the non-persistence of the marker is visible). -/
def sampleUpdatedMeetingAlert : UAlert :=
  { payload := .updatedScheduledMeeting 3 4 ⟨1, some ("x", "y")⟩,
    timestamp := 5, userHandle := 6, userEmail := "e", relevant := true,
    seen := false, tag := 0, id := 9, mRemoved := true }

/-- A changeset holding a stale title pair while the title flag is clear.
It is reachable through the public `Changeset` operations: build
`addChange default CHANGE_TYPE_TITLE "a" "b"` (flag set, pair present), then
copy-assign the default changeset onto it — `replaceCurrent`
(useralerts.h:407-415) takes the source's empty bit set but keeps the
destination's title pair when the source has none. -/
def staleTitleChangeset : Changeset := ⟨0, some ("a", "b")⟩

/-- An `UpdatedScheduledMeeting` alert carrying `staleTitleChangeset`. -/
def staleTitleAlert : UAlert :=
  { payload := .updatedScheduledMeeting 3 4 staleTitleChangeset,
    timestamp := 5, userHandle := 6, userEmail := "e", relevant := true,
    seen := false, tag := 0, id := 9, mRemoved := false }

/-! ## Helper lemmas -/

@[simp] theorem type_ipc_val : type_ipc = 6910051 := rfl

@[simp] theorem type_c_val : type_c = 99 := rfl

@[simp] theorem type_upci_val : type_upci = 1970299753 := rfl

@[simp] theorem type_upco_val : type_upco = 1970299759 := rfl

@[simp] theorem type_share_val : type_share = 495672455781 := rfl

@[simp] theorem type_dshare_val : type_dshare = 110446835233381 := rfl

@[simp] theorem type_put_val : type_put = 7370100 := rfl

@[simp] theorem type_d_val : type_d = 100 := rfl

@[simp] theorem type_u_val : type_u = 117 := rfl

@[simp] theorem type_psts_val : type_psts = 1886614643 := rfl

@[simp] theorem type_pses_val : type_pses = 1886610803 := rfl

@[simp] theorem type_ph_val : type_ph = 28776 := rfl

@[simp] theorem type_nusm_val : type_nusm = 469819944304 := rfl

@[simp] theorem type_dsm_val : type_dsm = 469819944306 := rfl

theorem readHandles_round (hs : List Handle) (rest : List Tok) :
    readHandles hs.length (hs.map Tok.un ++ rest) = some (hs, rest) := by
  induction hs with
  | nil => rfl
  | cons h t ih => simp [readHandles, ih]

theorem readHandleList_round (hs : List Handle) (rest : List Tok) :
    readHandleList (serializeHandleList hs ++ rest) = some (hs, rest) := by
  simp [serializeHandleList, readHandleList, readHandles_round]

theorem readHandleList_round_nil (hs : List Handle) :
    readHandleList (serializeHandleList hs) = some (hs, []) := by
  simpa using readHandleList_round hs []

theorem parse_serialize_payload :
    ∀ pl : Payload,
      (match pl with
       | .updatedScheduledMeeting _ _ cs =>
           cs.mUpdatedFields.testBit CHANGE_TYPE_TITLE = cs.mUpdatedTitle.isSome
       | _ => True) →
      parsePayload pl.typeOf pl.serializePL = some (pl, []) := by
  intro pl hwf
  cases pl with
  | incomingPendingContact p d r =>
      simp [Payload.typeOf, Payload.serializePL, parsePayload]
  | contactChange action =>
      simp [Payload.typeOf, Payload.serializePL, parsePayload]
  | updatedPendingContactIncoming action =>
      simp [Payload.typeOf, Payload.serializePL, parsePayload]
  | updatedPendingContactOutgoing action =>
      simp [Payload.typeOf, Payload.serializePL, parsePayload]
  | newShare fh =>
      simp [Payload.typeOf, Payload.serializePL, parsePayload]
  | deletedShare fh fp fn oh =>
      simp [Payload.typeOf, Payload.serializePL, parsePayload]
  | newSharedNodes p fs ds =>
      simp [Payload.typeOf, Payload.serializePL, parsePayload,
        readHandleList_round, readHandleList_round_nil]
  | removedSharedNode hs =>
      simp [Payload.typeOf, Payload.serializePL, parsePayload,
        readHandleList_round_nil]
  | updatedSharedNode hs =>
      simp [Payload.typeOf, Payload.serializePL, parsePayload,
        readHandleList_round_nil]
  | payment s plan =>
      simp [Payload.typeOf, Payload.serializePL, parsePayload]
  | paymentReminder t =>
      simp [Payload.typeOf, Payload.serializePL, parsePayload]
  | takedown td ri nh =>
      simp [Payload.typeOf, Payload.serializePL, parsePayload]
  | newScheduledMeeting sm parentSM =>
      simp [Payload.typeOf, Payload.serializePL, parsePayload,
        SMB.serializeSMB, SCHEDULED_USER_ALERT_NEW, SCHEDULED_USER_ALERT_UPDATE]
  | updatedScheduledMeeting sm parentSM cs =>
      obtain ⟨flags, title⟩ := cs
      cases title with
      | some pr =>
          obtain ⟨o, nw⟩ := pr
          have hb : flags.testBit CHANGE_TYPE_TITLE = true := by simpa using hwf
          simp [Payload.typeOf, Payload.serializePL, parsePayload,
            SMB.serializeSMB, Changeset.serializeCS, Changeset.parseCS, hb,
            SCHEDULED_USER_ALERT_NEW, SCHEDULED_USER_ALERT_UPDATE]
      | none =>
          have hb : flags.testBit CHANGE_TYPE_TITLE = false := by simpa using hwf
          simp [Payload.typeOf, Payload.serializePL, parsePayload,
            SMB.serializeSMB, Changeset.serializeCS, Changeset.parseCS, hb,
            SCHEDULED_USER_ALERT_NEW, SCHEDULED_USER_ALERT_UPDATE]
  | deletedScheduledMeeting sm =>
      simp [Payload.typeOf, Payload.serializePL, parsePayload,
        SMB.serializeSMB, DeletedScheduledMeeting.construct,
        SCHEDULED_USER_ALERT_NEW, SCHEDULED_USER_ALERT_UPDATE]

theorem changeset_reached_invariant :
    ∀ cs : Changeset, cs.Reached → cs.invariantB = true := by
  intro cs h
  induction h with
  | default => decide
  | fromBits bs t ht =>
      by_cases hb : bs.testBit CHANGE_TYPE_TITLE = true
      · simp [Changeset.invariantB, hb, ht hb]
      · simp [Changeset.invariantB, Bool.not_eq_true] at hb ⊢
        simp [hb]
  | add cs ct o nv _ ih =>
      by_cases hv : Changeset.isValidChange ct = true
      · by_cases hz : intToUnsigned ct = CHANGE_TYPE_TITLE
        · simp [Changeset.addChange, hv, hz, Changeset.invariantB]
        · simp only [Changeset.addChange, hv, if_pos, if_true, hz, if_false,
            if_neg, Changeset.invariantB] at ih ⊢
          rw [Nat.testBit_lor, Nat.shiftLeft_eq, one_mul,
            Nat.testBit_two_pow_of_ne hz, Bool.or_false]
          exact ih
      · simp only [Changeset.addChange, hv, Bool.false_eq_true, if_false]
        exact ih
  | copy dst src _ _ _ ihs =>
      cases hsrc : src.mUpdatedTitle with
      | some p => simp [Changeset.replaceCurrent, Changeset.invariantB, hsrc]
      | none =>
          simp only [Changeset.replaceCurrent, hsrc, Changeset.invariantB] at ihs ⊢
          by_cases hb : src.mUpdatedFields.testBit CHANGE_TYPE_TITLE = true
          · rw [hb] at ihs
            simp [hsrc] at ihs
          · simp [Bool.not_eq_true] at hb
            simp [hb]

theorem alertIds_map_of_id_preserved (f : UAlert → UAlert) (l : List UAlert)
    (hf : ∀ a, (f a).id = a.id) : alertIds (l.map f) = alertIds l := by
  induction l with
  | nil => rfl
  | cons a t ih => simp only [alertIds, List.map_cons] at ih ⊢; rw [hf a, ih]

theorem ghostScrub_fst_ids (hs : List Handle) (al : List UAlert) :
    alertIds (ghostScrub al hs).1 = alertIds al := by
  induction hs generalizing al with
  | nil => rfl
  | cons h t ih =>
      simp only [ghostScrub]
      rw [ih]
      exact alertIds_map_of_id_preserved _ al (fun a => rfl)

theorem alertIds_length (l : List UAlert) : (alertIds l).length = l.length := by
  simp [alertIds]

theorem ghostScrub_fst_length (hs : List Handle) (al : List UAlert) :
    (ghostScrub al hs).1.length = al.length := by
  have h1 := congrArg List.length (ghostScrub_fst_ids hs al)
  rwa [alertIds_length, alertIds_length] at h1

theorem updateById_ids (l : List UAlert) (i : Nat) (f : UAlert → UAlert)
    (hf : ∀ a, (f a).id = a.id) : alertIds (updateById l i f) = alertIds l := by
  refine alertIds_map_of_id_preserved _ l (fun a => ?_)
  by_cases h : a.id = i <;> simp [h, hf a]

theorem updateById_combine_ids (l : List UAlert) (i : Nat) (c : UAlert) :
    alertIds (updateById l i (combineInto c)) = alertIds l :=
  updateById_ids l i (combineInto c) (fun _ => rfl)

theorem trimAlerts_eq (l : List UAlert) :
    trimAlerts l = (l.drop (l.length - maxAlertCount),
      (l.take (l.length - maxAlertCount)).map UAlert.setRemoved) := by
  induction l with
  | nil => rfl
  | cons a rest ih =>
      by_cases h : rest.length + 1 > maxAlertCount
      · have hk : rest.length + 1 - maxAlertCount =
            (rest.length - maxAlertCount) + 1 := by omega
        simp [trimAlerts, h, ih, hk]
      · have hk : rest.length + 1 - maxAlertCount = 0 := by omega
        simp [trimAlerts, h, hk]

theorem trimAlerts_fst_le (l : List UAlert) :
    (trimAlerts l).1.length ≤ maxAlertCount := by
  rw [trimAlerts_eq]
  simp only [List.length_drop]
  omega

theorem trimAlerts_fst_sublist (l : List UAlert) : (trimAlerts l).1.Sublist l := by
  rw [trimAlerts_eq]
  exact List.drop_sublist _ _

theorem trimAlerts_snd_removed (l : List UAlert) :
    ∀ a ∈ (trimAlerts l).2, a.mRemoved = true := by
  rw [trimAlerts_eq]
  intro a ha
  simp only [List.mem_map] at ha
  obtain ⟨b, _, hb⟩ := ha
  rw [← hb]
  rfl

theorem scrubbed_einv (e : Engine) (hs : List Handle) (al2 : List UAlert)
    (heq : ghostScrub e.alerts hs = (al2, (ghostScrub e.alerts hs).2))
    (h : EInv e) : EInv { e with alerts := al2 } := by
  obtain ⟨hlen, hpair, hbound, hlog, htrim⟩ := h
  have hids : alertIds (ghostScrub e.alerts hs).1 = alertIds e.alerts :=
    ghostScrub_fst_ids hs e.alerts
  have hlen2 : (ghostScrub e.alerts hs).1.length = e.alerts.length :=
    ghostScrub_fst_length hs e.alerts
  have hfst : (ghostScrub e.alerts hs).1 = al2 := by rw [heq]
  rw [hfst] at hids hlen2
  refine ⟨?_, ?_, ?_, hlog, htrim⟩
  · show al2.length ≤ maxAlertCount
    rw [hlen2]; exact hlen
  · show List.Pairwise (· < ·) (alertIds al2)
    rw [hids]; exact hpair
  · show ∀ i ∈ alertIds al2, i < e.nextid
    intro i hi
    rw [hids] at hi
    exact hbound i hi

theorem commitAlert_inv (e : Engine) (c : UAlert) (h : EInv e) :
    EInv (commitAlert e c) := by
  obtain ⟨hlen, hpair, hbound, hlog, htrim⟩ := h
  simp only [commitAlert]
  split
  case h_1 target heq =>
    refine ⟨?_, ?_, ?_, ?_, ?_⟩
    · show (updateById e.alerts target.id
        (combineInto { c with id := e.nextid })).length ≤ maxAlertCount
      simpa [updateById] using hlen
    · show List.Pairwise (· < ·) (alertIds (updateById e.alerts target.id
        (combineInto { c with id := e.nextid })))
      rw [updateById_combine_ids]
      exact hpair
    · show ∀ i ∈ alertIds (updateById e.alerts target.id
        (combineInto { c with id := e.nextid })), i < e.nextid + 1
      intro i hi
      rw [updateById_combine_ids] at hi
      exact Nat.lt_succ_of_lt (hbound i hi)
    · show List.map IdEvent.eventId (e.idLog ++ [IdEvent.merged e.nextid]) =
        List.range (e.nextid + 1)
      simp [hlog, List.range_succ, IdEvent.eventId]
    · exact htrim
  case h_2 heq =>
    have hidsl : alertIds (e.alerts ++ [{ c with id := e.nextid }]) =
        alertIds e.alerts ++ [e.nextid] := by simp [alertIds]
    have hpl : List.Pairwise (· < ·)
        (alertIds (e.alerts ++ [{ c with id := e.nextid }])) := by
      rw [hidsl, List.pairwise_append]
      refine ⟨hpair, List.pairwise_singleton _ _, ?_⟩
      intro i hi b hb
      rw [List.mem_singleton] at hb
      rw [hb]
      exact hbound i hi
    have hsub : (trimAlerts (e.alerts ++ [{ c with id := e.nextid }])).1.Sublist
        (e.alerts ++ [{ c with id := e.nextid }]) := trimAlerts_fst_sublist _
    have hsubids : (alertIds
        (trimAlerts (e.alerts ++ [{ c with id := e.nextid }])).1).Sublist
        (alertIds (e.alerts ++ [{ c with id := e.nextid }])) :=
      List.Sublist.map _ hsub
    refine ⟨?_, ?_, ?_, ?_, ?_⟩
    · show (trimAlerts (e.alerts ++ [{ c with id := e.nextid }])).1.length ≤
        maxAlertCount
      exact trimAlerts_fst_le _
    · show List.Pairwise (· < ·)
        (alertIds (trimAlerts (e.alerts ++ [{ c with id := e.nextid }])).1)
      exact hpl.sublist hsubids
    · show ∀ i ∈ alertIds
        (trimAlerts (e.alerts ++ [{ c with id := e.nextid }])).1,
        i < e.nextid + 1
      intro i hi
      have hi2 : i ∈ alertIds (e.alerts ++ [{ c with id := e.nextid }]) :=
        hsubids.subset hi
      rw [hidsl, List.mem_append] at hi2
      rcases hi2 with hi2 | hi2
      · exact Nat.lt_succ_of_lt (hbound i hi2)
      · rw [List.mem_singleton] at hi2
        rw [hi2]
        exact Nat.lt_succ_self _
    · show List.map IdEvent.eventId (e.idLog ++ [IdEvent.committed e.nextid]) =
        List.range (e.nextid + 1)
      simp [hlog, List.range_succ, IdEvent.eventId]
    · show ∀ a ∈ e.trimmedAlerts ++
        (trimAlerts (e.alerts ++ [{ c with id := e.nextid }])).2,
        a.mRemoved = true
      intro a ha
      rw [List.mem_append] at ha
      rcases ha with ha | ha
      · exact htrim a ha
      · exact trimAlerts_snd_removed _ a ha

theorem addAlert_inv (e : Engine) (c : UAlert) (h : EInv e) :
    EInv (addAlert e c) := by
  unfold addAlert
  by_cases hp : e.provisionalmode = true
  · rw [if_pos hp]
    exact h
  · rw [if_neg hp]
    split
    next hs heqp =>
      split
      next al2 heq =>
        exact scrubbed_einv e hs al2 (by rw [heq]) h
      next al2 k ks heq =>
        refine commitAlert_inv _ _ ?_
        exact scrubbed_einv e hs al2 (by rw [heq]) h
    next heqp =>
      exact commitAlert_inv _ _ h

theorem foldl_addAlert_inv (cs : List UAlert) (e : Engine) (h : EInv e) :
    EInv (cs.foldl addAlert e) := by
  induction cs generalizing e with
  | nil => exact h
  | cons c t ih => exact ih _ (addAlert_inv e c h)

theorem stepOp_inv (e : Engine) (op : Op) (h : EInv e) : EInv (stepOp e op) := by
  cases op with
  | add c => exact addAlert_inv e c h
  | beginNoting => exact h
  | note u isF ts n p ty =>
      show EInv (noteSharedNode e u isF ts n p ty)
      unfold noteSharedNode
      split
      · exact h
      · exact h
  | convert added u => exact foldl_addAlert_inv _ _ h
  | startProv => exact h
  | evalProv valid ou => exact foldl_addAlert_inv _ _ h
  | clear => exact h
  | ackAll =>
      obtain ⟨hlen, hpair, hbound, hlog, htrim⟩ := h
      have hids : alertIds (e.alerts.map (fun a => a.setSeen true)) =
          alertIds e.alerts :=
        alertIds_map_of_id_preserved _ _ (fun a => rfl)
      refine ⟨?_, ?_, ?_, hlog, htrim⟩
      · show (e.alerts.map (fun a => a.setSeen true)).length ≤ maxAlertCount
        simpa using hlen
      · show List.Pairwise (· < ·)
          (alertIds (e.alerts.map (fun a => a.setSeen true)))
        rw [hids]; exact hpair
      · show ∀ i ∈ alertIds (e.alerts.map (fun a => a.setSeen true)),
          i < e.nextid
        intro i hi
        rw [hids] at hi
        exact hbound i hi
  | catchupDone => exact h

theorem einv_init : EInv initEngine := by
  refine ⟨Nat.zero_le _, List.Pairwise.nil, ?_, rfl, ?_⟩
  · intro i hi
    simp [initEngine, alertIds] at hi
  · intro a ha
    simp [initEngine] at ha

theorem runOps_inv_from (ops : List Op) :
    ∀ e : Engine, EInv e → EInv (runOps e ops) := by
  induction ops with
  | nil => exact fun e h => h
  | cons op rest ih => exact fun e h => ih _ (stepOp_inv e op h)

theorem runOps_inv (ops : List Op) : EInv (runOps initEngine ops) :=
  runOps_inv_from ops initEngine einv_init

theorem provisional_foldl (cs : List UAlert) (e : Engine)
    (h : e.provisionalmode = true) :
    cs.foldl addAlert e = { e with provisionals := e.provisionals ++ cs } := by
  induction cs generalizing e with
  | nil => simp
  | cons c rest ih =>
      have h1 : addAlert e c = { e with provisionals := e.provisionals ++ [c] } := by
        simp [addAlert, h]
      rw [List.foldl_cons, h1, ih _ (by simp [h])]
      simp

/-! ## Claims -/

/-- C2 counterexample: the claim fails as frozen.  The changeset
`⟨flags = 0, title = some ("a", "b")⟩` — a stale title pair with the title
flag clear — is reachable through the public `Changeset` operations
(copy-assign a default changeset onto one built by
`addChange CHANGE_TYPE_TITLE`: `replaceCurrent`, useralerts.h:407-415, takes
the source's bits but keeps the destination's pair), yet the persisted
payload emits the pair only when the flag is set, so the round trip of an
alert carrying it returns the pair as absent instead of reproducing every
payload field. -/
theorem c2_counterexample :
    Changeset.Reached staleTitleChangeset ∧
    unserializeAlert (serializeAlert staleTitleAlert) staleTitleAlert.id =
      some { staleTitleAlert with
        payload := .updatedScheduledMeeting 3 4 ⟨0, none⟩ } ∧
    unserializeAlert (serializeAlert staleTitleAlert) staleTitleAlert.id ≠
      some { staleTitleAlert with mRemoved := false } :=
  ⟨Changeset.Reached.copy (Changeset.addChange ⟨0, none⟩ 0 "a" "b") ⟨0, none⟩
      (Changeset.Reached.add _ 0 "a" "b" Changeset.Reached.default)
      Changeset.Reached.default,
   by decide, by decide⟩

/-- C2 (amended): for every alert of every kind,
`deserialize(serialize(alert))` reproduces the common prefix (type tag via
the payload kind, timestamp, user handle, email, relevant flag, seen flag)
and the kind-specific payload exactly, with the id supplied by the enclosing
database record, except the transient removed marker (not persisted, always
reading back `false`) and, for a scheduled-meeting update, a stale title
pair held while the title flag is clear (the payload encodes the pair only
when the flag is set, so such a pair is dropped — the counterexample).
Equivalently, as proved here: the round trip reproduces every field but the
removed marker whenever the update changeset carries its title pair exactly
when the title flag is set. -/
theorem c2_serialize_roundtrip :
    ∀ a : UAlert, a.wf →
      ∃ r, unserializeAlert (serializeAlert a) a.id = some r ∧
        r.payload = a.payload ∧ r.timestamp = a.timestamp ∧
        r.userHandle = a.userHandle ∧ r.userEmail = a.userEmail ∧
        r.relevant = a.relevant ∧ r.seen = a.seen ∧ r.id = a.id ∧
        r.mRemoved = false := by
  intro a hwf
  have hp : parsePayload a.payload.typeOf a.payload.serializePL =
      some (a.payload, []) := parse_serialize_payload a.payload hwf
  refine ⟨⟨a.payload, a.timestamp, a.userHandle, a.userEmail, a.relevant,
    a.seen, 0, a.id, false⟩, ?_, rfl, rfl, rfl, rfl, rfl, rfl, rfl, rfl⟩
  simp only [serializeAlert, serializeCommonFields, List.cons_append,
    List.nil_append, unserializeAlert]
  rw [hp]
  rfl

/-- C2 witness: the round trip evaluated on a concrete
`UpdatedScheduledMeeting` alert with a changed title and the removed marker
set. -/
theorem c2_witness :
    ∃ r, unserializeAlert (serializeAlert sampleUpdatedMeetingAlert)
        sampleUpdatedMeetingAlert.id = some r ∧
      r.payload = sampleUpdatedMeetingAlert.payload ∧
      r.timestamp = sampleUpdatedMeetingAlert.timestamp ∧
      r.userHandle = sampleUpdatedMeetingAlert.userHandle ∧
      r.userEmail = sampleUpdatedMeetingAlert.userEmail ∧
      r.relevant = sampleUpdatedMeetingAlert.relevant ∧
      r.seen = sampleUpdatedMeetingAlert.seen ∧
      r.id = sampleUpdatedMeetingAlert.id ∧
      r.mRemoved = false :=
  c2_serialize_roundtrip sampleUpdatedMeetingAlert rfl

/-- C9: every `DeletedScheduledMeeting` built by its value constructor gets
the scheduled-meeting subtype `SCHEDULED_USER_ALERT_NEW` (not
`SCHEDULED_USER_ALERT_DELETED`), and consequently
`ScheduledMeetingBase::serialize` writes a parent-series handle field equal
to `UNDEF` into the persisted payload right after the meeting handle. -/
theorem c9_deleted_meeting_subtype_and_parent_field :
    ∀ (sm : Handle) (d : List Tok),
      (DeletedScheduledMeeting.construct sm).mSchedMeetingsSubtype =
        SCHEDULED_USER_ALERT_NEW ∧
      SCHEDULED_USER_ALERT_NEW ≠ SCHEDULED_USER_ALERT_DELETED ∧
      SMB.serializeSMB (DeletedScheduledMeeting.construct sm) d =
        d ++ [Tok.un SCHEDULED_USER_ALERT_NEW, Tok.un sm, Tok.un UNDEF] := by
  intro sm d
  refine ⟨rfl, by decide, ?_⟩
  simp [SMB.serializeSMB, DeletedScheduledMeeting.construct,
    SCHEDULED_USER_ALERT_NEW, SCHEDULED_USER_ALERT_UPDATE]

/-- C10: a freshly constructed alert has `relevant() = true`,
`seen() = false` and `removed() = false` before any setter runs; no setter
other than `setRemoved` touches the removed marker, `setRemoved` turns it
on, and the marker never reaches the persisted byte stream. -/
theorem c10_fresh_alert_flags :
    ∀ (pl : Payload) (uh : Handle) (em : String) (ts : Int) (i : Nat)
      (a : UAlert) (s r b : Bool) (eml : String),
      (mkAlert pl uh em ts i).relevant = true ∧
      (mkAlert pl uh em ts i).seen = false ∧
      (mkAlert pl uh em ts i).mRemoved = false ∧
      (a.setSeen s).mRemoved = a.mRemoved ∧
      (a.setRelevant r).mRemoved = a.mRemoved ∧
      (a.setEmail eml).mRemoved = a.mRemoved ∧
      a.setRemoved.mRemoved = true ∧
      serializeAlert { a with mRemoved := b } = serializeAlert a :=
  fun _ _ _ _ _ _ _ _ _ _ => ⟨rfl, rfl, rfl, rfl, rfl, rfl, rfl, rfl⟩

/-- C7 counterexample: the claim states that the change-tracking operations
given an out-of-range change-type index do not assert; but evaluating
`Set::hasChanged` or `SetElement::setChanged` at the out-of-range index 4
(`CH_SIZE`) runs `CommonSE::validChangeType`, whose `assert(typ < typMax)`
expression is violated there. -/
theorem c7_counterexample :
    (SetModel.hasChanged ⟨0⟩ 4).1 = true ∧
    (ElemModel.setChanged ⟨0⟩ 4).1 = true := by
  decide

/-- C7 (amended): for every change-type index outside the declared range,
the operations return a benign failure — `hasChanged` returns `false` and
the mutators perform no mutation — and the scheduled-meeting `Changeset`
operations do not assert; however `CommonSE::validChangeType`, used by `Set`
and `SetElement`, asserts the index is in range (in debug builds) before
returning the failure indicator. -/
theorem c7_amended_out_of_range_benign :
    ∀ (cs : Changeset) (s : SetModel) (el : ElemModel) (ct : Int)
      (o nv : String),
      (CHANGE_TYPE_SIZE ≤ intToUnsigned ct →
        cs.hasChanged ct = false ∧ cs.addChange ct o nv = cs) ∧
      (CH_SIZE ≤ intToUnsigned ct →
        s.hasChanged ct = (true, false) ∧ s.setChanged ct = (true, s) ∧
        el.hasChanged ct = (true, false) ∧ el.setChanged ct = (true, el)) := by
  intro cs s el ct o nv
  constructor
  · intro h
    have hn : ¬ intToUnsigned ct < CHANGE_TYPE_SIZE := Nat.not_lt.mpr h
    constructor
    · simp [Changeset.hasChanged, Changeset.isValidChange, hn]
    · simp [Changeset.addChange, Changeset.isValidChange, hn]
  · intro h
    have hn : ¬ intToUnsigned ct < CH_SIZE := Nat.not_lt.mpr h
    have h4 : (4 : Nat) ≤ intToUnsigned ct := h
    have hn4 : ¬ intToUnsigned ct < 4 := hn
    refine ⟨?_, ?_, ?_, ?_⟩ <;>
      · simp [SetModel.hasChanged, SetModel.setChanged, ElemModel.hasChanged,
          ElemModel.setChanged, validChangeTypeChecked, CH_SIZE, CH_EL_SIZE, hn]
        exact ⟨h4, fun hlt => absurd hlt hn4⟩

/-- C7 amended witness: the amended statement evaluated at the negative
index `-1` (which converts to the out-of-range unsigned 4294967295). -/
theorem c7_amended_witness :
    Changeset.hasChanged ⟨0, none⟩ (-1) = false ∧
    SetModel.setChanged ⟨0⟩ (-1) = (true, ⟨0⟩) :=
  ⟨((c7_amended_out_of_range_benign ⟨0, none⟩ ⟨0⟩ ⟨0⟩ (-1) "" "").1 (by decide)).1,
   ((c7_amended_out_of_range_benign ⟨0, none⟩ ⟨0⟩ ⟨0⟩ (-1) "" "").2 (by decide)).2.1⟩

/-- C8: every `Changeset` reachable through the public operations (default
construction, construction from a bit set and title pair, `addChange`, copy
and move construction/assignment) satisfies the invariant "title change flag
set implies the old/new title pair is present", and its serialized payload
carries the title string pair exactly when the title flag is set. -/
theorem c8_changeset_invariant_reachable :
    ∀ cs : Changeset, cs.Reached →
      cs.invariantB = true ∧
      countStrToks cs.serializeCS =
        (if cs.mUpdatedFields.testBit CHANGE_TYPE_TITLE then 2 else 0) := by
  intro cs h
  have hinv := changeset_reached_invariant cs h
  refine ⟨hinv, ?_⟩
  by_cases hb : cs.mUpdatedFields.testBit CHANGE_TYPE_TITLE = true
  · simp only [Changeset.invariantB, hb, if_true] at hinv
    cases ht : cs.mUpdatedTitle with
    | some p => simp [Changeset.serializeCS, hb, ht, countStrToks]
    | none => rw [ht] at hinv; simp at hinv
  · simp [Bool.not_eq_true] at hb
    simp [Changeset.serializeCS, hb, countStrToks]

/-- C8 witness: the invariant and encoding shape checked on the reachable
changeset `addChange default CHANGE_TYPE_TITLE "a" "b"`. -/
theorem c8_witness :
    (Changeset.addChange ⟨0, none⟩ 0 "a" "b").invariantB = true ∧
    countStrToks (Changeset.addChange ⟨0, none⟩ 0 "a" "b").serializeCS =
      (if (Changeset.addChange ⟨0, none⟩ 0 "a" "b").mUpdatedFields.testBit
          CHANGE_TYPE_TITLE then 2 else 0) :=
  c8_changeset_invariant_reachable _
    (Changeset.Reached.add _ 0 "a" "b" Changeset.Reached.default)

/-- C1 counterexample: the claim quantifies over every handle noted as added
and then noted as deleted before the conversion boundary runs; on the
concrete run `c1NoteAddDeleteOps` (user 1, parent 2, handle 5) the deletion
noting overwrites the addition in the noted map, the addition was never
converted into an alert, so ghost suppression — which searches current
alerts — finds nothing, and `convertNotedSharedNodes(false, 1)` commits a
`RemovedSharedNode` alert that references handle 5. -/
theorem c1_counterexample :
    ((runOps initEngine c1NoteAddDeleteOps).alerts.any
      (fun a => mentionsNode 5 a)) = true ∧
    ((runOps initEngine c1NoteAddDeleteOps).alerts.any
      isRemovedSharedNodeAlert) = true := by
  exact ⟨rfl, rfl⟩

/-- C1 (amended): for every node handle that is noted as added and converted
into a (still unflushed) `NewSharedNodes` alert, and then noted as deleted
before the removal conversion boundary runs, after
`convertNotedSharedNodes(false, user)` the alert store contains no alert
(`NewSharedNodes` or `RemovedSharedNode`) whose payload references that
handle, and no `RemovedSharedNode` alert is created for it (no id beyond the
original commit is ever drawn); if the addition was never converted, a
`RemovedSharedNode` referencing the handle is produced instead (the
counterexample run). -/
theorem c1_amended_ghost_suppression :
    ∀ (U P H : Handle) (t1 t2 : Int),
      ((runOps { initEngine with catchupdone := true }
        (c1GhostOps U P H t1 t2)).alerts.all
          (fun a => !mentionsNode H a)) = true ∧
      ((runOps { initEngine with catchupdone := true }
        (c1GhostOps U P H t1 t2)).alerts.all
          (fun a => !isRemovedSharedNodeAlert a)) = true ∧
      (runOps { initEngine with catchupdone := true }
        (c1GhostOps U P H t1 t2)).idLog = [IdEvent.committed 0] := by
  intro U P H t1 t2
  simp [c1GhostOps, runOps, stepOp, beginNotingSharedNodes, noteSharedNode,
    convertNotedSharedNodes, addAlert, commitAlert, candidateOf, ffUpsert,
    assocInsert, FF.fileHandles, FF.folderHandles, mkAlert,
    findAlertToCombineWith, combinesWith, ghostScrub, inNewSharedNodes,
    hmem, herase, erasePayloadHandle, trimAlerts, updateById, combineInto,
    combinePayload, hunion, enqueue, maxAlertCount, initEngine,
    mentionsNode, isRemovedSharedNodeAlert]

/-- C4: two node-add events with the same originating user and the same
parent folder, the second arriving while the alert from the first is still
unflushed, produce a single `NewSharedNodes` alert whose file-handle list is
the duplicate-free union of the two inputs, whose timestamp is the later of
the two, and whose id is re-enqueued in the notify queue exactly once — the
second candidate is merged (its id skipped), not appended as a duplicate. -/
theorem c4_same_user_parent_add_events_merge :
    ∀ (U P H1 H2 : Handle) (t1 t2 : Int),
      ((runOps { initEngine with catchupdone := true }
        (c4Ops U P H1 H2 t1 t2)).alerts.map (fun a => a.payload) =
        [.newSharedNodes P (if H2 = H1 then [H1] else [H1, H2]) []]) ∧
      ((runOps { initEngine with catchupdone := true }
        (c4Ops U P H1 H2 t1 t2)).alerts.map (fun a => a.timestamp) =
        [max t1 t2]) ∧
      ((runOps { initEngine with catchupdone := true }
        (c4Ops U P H1 H2 t1 t2)).alerts.map (fun a => a.userHandle) = [U]) ∧
      ((runOps { initEngine with catchupdone := true }
        (c4Ops U P H1 H2 t1 t2)).notify = [0]) ∧
      ((runOps { initEngine with catchupdone := true }
        (c4Ops U P H1 H2 t1 t2)).idLog =
        [IdEvent.committed 0, IdEvent.merged 1]) ∧
      ((if H2 = H1 then [H1] else [H1, H2]) : List Handle).Nodup := by
  intro U P H1 H2 t1 t2
  by_cases hH : H2 = H1
  · subst hH
    simp [c4Ops, runOps, stepOp, beginNotingSharedNodes, noteSharedNode,
      convertNotedSharedNodes, addAlert, commitAlert, candidateOf, ffUpsert,
      assocInsert, FF.fileHandles, FF.folderHandles, mkAlert,
      findAlertToCombineWith, combinesWith, ghostScrub, inNewSharedNodes,
      hmem, herase, erasePayloadHandle, trimAlerts, updateById, combineInto,
      combinePayload, hunion, enqueue, maxAlertCount, initEngine]
  · have hH2 : ¬ (H1 = H2) := fun h => hH h.symm
    simp [c4Ops, runOps, stepOp, beginNotingSharedNodes, noteSharedNode,
      convertNotedSharedNodes, addAlert, commitAlert, candidateOf, ffUpsert,
      assocInsert, FF.fileHandles, FF.folderHandles, mkAlert,
      findAlertToCombineWith, combinesWith, ghostScrub, inNewSharedNodes,
      hmem, herase, erasePayloadHandle, trimAlerts, updateById, combineInto,
      combinePayload, hunion, enqueue, maxAlertCount, initEngine, hH, hH2]

/-- C3: after every sequence of mutating operations (append, merge, noting,
conversion, provisional commit, acknowledge, clear), the alert log holds at
most 200 alerts and its ids strictly increase from the head — so the head
entries are the oldest, lowest-id ones; `trimAlertsToMaxCount` removes
exactly the head prefix beyond the bound, marking each removed entry removed
for persistence cleanup (the engine keeps them in its trimmed-entry record
rather than silently dropping them). -/
theorem c3_bounded_log_trim_oldest :
    (∀ ops : List Op,
      (runOps initEngine ops).alerts.length ≤ maxAlertCount ∧
      List.Pairwise (· < ·) (alertIds (runOps initEngine ops).alerts) ∧
      ((runOps initEngine ops).trimmedAlerts.all
        (fun a => a.mRemoved)) = true) ∧
    (∀ l : List UAlert,
      trimAlerts l = (l.drop (l.length - maxAlertCount),
        (l.take (l.length - maxAlertCount)).map UAlert.setRemoved)) := by
  constructor
  · intro ops
    obtain ⟨h1, h2, _, _, h5⟩ := runOps_inv ops
    refine ⟨h1, h2, ?_⟩
    rw [List.all_eq_true]
    intro a ha
    exact h5 a ha
  · exact trimAlerts_eq

/-- C6: the ids drawn from the engine's counter over its lifetime are exactly
`0, 1, 2, …` in drawing order (strictly increasing at creation), the sequence
of committed-alert ids is strictly increasing, and every drawn id was either
committed or consumed by a candidate merged into an existing alert — gaps in
the committed sequence come only from merges. -/
theorem c6_ids_strictly_increase_gaps_only_merges :
    ∀ ops : List Op,
      List.map IdEvent.eventId (runOps initEngine ops).idLog =
        List.range (runOps initEngine ops).nextid ∧
      List.Pairwise (· < ·) (committedIds (runOps initEngine ops).idLog) ∧
      ((List.range (runOps initEngine ops).nextid).all (fun n =>
        decide (IdEvent.committed n ∈ (runOps initEngine ops).idLog) ||
        decide (IdEvent.merged n ∈ (runOps initEngine ops).idLog))) = true := by
  intro ops
  obtain ⟨_, _, _, h4, _⟩ := runOps_inv ops
  refine ⟨h4, ?_, ?_⟩
  · have hsub : (committedIds (runOps initEngine ops).idLog).Sublist
        (List.map IdEvent.eventId (runOps initEngine ops).idLog) :=
      List.Sublist.map _ (List.filter_sublist _)
    rw [h4] at hsub
    exact (List.pairwise_lt_range _).sublist hsub
  · rw [List.all_eq_true]
    intro n hn
    rw [← h4] at hn
    obtain ⟨ev, hev, hid⟩ := List.mem_map.mp hn
    simp only [Bool.or_eq_true, decide_eq_true_eq]
    cases ev with
    | committed i =>
        have hin : i = n := hid
        subst hin
        exact Or.inl hev
    | merged i =>
        have hin : i = n := hid
        subst hin
        exact Or.inr hev

/-- C5: while provisional (catch-up buffering) mode is active, every alert
fed to `add` is held in the provisional side buffer and the alert store and
notify queue are untouched; `clear()` during that window discards the
buffered provisional alerts and changes neither the store nor the notify
queue. -/
theorem c5_provisional_buffering :
    ∀ (e : Engine) (cs : List UAlert), e.provisionalmode = true →
      (cs.foldl addAlert e).alerts = e.alerts ∧
      (cs.foldl addAlert e).notify = e.notify ∧
      (cs.foldl addAlert e).provisionals = e.provisionals ++ cs ∧
      (clearUA e).alerts = e.alerts ∧
      (clearUA e).notify = e.notify ∧
      (clearUA e).provisionals = [] := by
  intro e cs h
  rw [provisional_foldl cs e h]
  exact ⟨rfl, rfl, rfl, rfl, rfl, rfl⟩

/-- C5 witness: the buffering statement evaluated on an engine in
provisional mode with one buffered contact-change candidate. -/
theorem c5_witness :
    (([mkAlert (.contactChange 0) 7 "" 5 0].foldl addAlert
        { initEngine with provisionalmode := true }).alerts =
      ({ initEngine with provisionalmode := true } : Engine).alerts) ∧
    (([mkAlert (.contactChange 0) 7 "" 5 0].foldl addAlert
        { initEngine with provisionalmode := true }).notify =
      ({ initEngine with provisionalmode := true } : Engine).notify) ∧
    (([mkAlert (.contactChange 0) 7 "" 5 0].foldl addAlert
        { initEngine with provisionalmode := true }).provisionals =
      ({ initEngine with provisionalmode := true } : Engine).provisionals ++
        [mkAlert (.contactChange 0) 7 "" 5 0]) ∧
    ((clearUA { initEngine with provisionalmode := true }).alerts =
      ({ initEngine with provisionalmode := true } : Engine).alerts) ∧
    ((clearUA { initEngine with provisionalmode := true }).notify =
      ({ initEngine with provisionalmode := true } : Engine).notify) ∧
    ((clearUA { initEngine with provisionalmode := true }).provisionals = []) :=
  c5_provisional_buffering { initEngine with provisionalmode := true }
    [mkAlert (.contactChange 0) 7 "" 5 0] rfl

end MegaSDK
